import Mathlib

/-!
Verification of the mailbox transport driver drivers/misc/mbox-host.c
against its natural-language specification.

The driver is shallowly embedded: register-window offsets and control
bits are carried over verbatim from the source, the memory-mapped
hardware is a record MboxHw, and each file operation of the driver is a
Lean function from the hardware state (plus explicit models of the user
buffer, access_ok and signal delivery) to its result, its successor
state, and a trace of the externally visible events it performed
(register reads and writes, wake-ups, poll registration, user-space
copies), in program order.
-/

/-- Register-window constants of drivers/misc/mbox-host.c, verbatim. -/
def MBOX_NUM_REGS : Nat := 16

def MBOX_NUM_DATA_REGS : Nat := 14

def MBOX_DATA_0 : Nat := 0x00

def MBOX_STATUS_0 : Nat := 0x40

def MBOX_STATUS_1 : Nat := 0x44

def MBOX_BMC_CTRL : Nat := 0x48

def MBOX_CTRL_RECV : Nat := 0x80

def MBOX_CTRL_MASK : Nat := 0x02

def MBOX_CTRL_SEND : Nat := 0x01

def MBOX_HOST_CTRL : Nat := 0x4c

def MBOX_INTERRUPT_0 : Nat := 0x50

def MBOX_INTERRUPT_1 : Nat := 0x54

/-- The hardware state visible through the register window: plain byte
storage for every offset except the control register at MBOX_BMC_CTRL,
whose three architected bits are kept as fields. -/
structure MboxHw where
  slot : Nat → Nat
  recv : Bool
  mask : Bool
  send : Bool

/-- The byte read back from the control register: RECV, MASK and SEND at
their bit positions from the source header block. -/
def ctrlByte (s : MboxHw) : Nat :=
  (if s.recv then MBOX_CTRL_RECV else 0) +
    (if s.mask then MBOX_CTRL_MASK else 0) +
    (if s.send then MBOX_CTRL_SEND else 0)

/-- ioread8 on the register window (mbox_inb). -/
def hwRead (s : MboxHw) (off : Nat) : Nat :=
  if off = MBOX_BMC_CTRL then ctrlByte s else s.slot off

/-- Modelled from the spec: the status-register contract of spec section 3
(the hardware itself is not part of the repository). Writing a byte with
the RECV bit set is W1C and atomically clears-and-unmasks; writing the
MASK bit sets the mask; writing the SEND bit asserts SEND. A write to any
other offset stores the byte (iowrite8 truncates to 8 bits). -/
def hwWrite (s : MboxHw) (v off : Nat) : MboxHw :=
  if off = MBOX_BMC_CTRL then
    let s1 := if Nat.testBit v 7 then { s with recv := false, mask := false } else s
    let s2 := if Nat.testBit v 1 then { s1 with mask := true } else s1
    if Nat.testBit v 0 then { s2 with send := true } else s2
  else
    { s with slot := fun o => if o = off then v % 256 else s.slot o }

/-- The externally visible events a driver operation performs, in program
order: register reads and writes, wake_up on the wait queue, poll_wait
registration, and the user-space byte copies. -/
inductive Ev where
  | inb (off v : Nat)
  | outb (v off : Nat)
  | wake
  | pollWaitReg
  | putUser (i v : Nat)
  | getUser (i v : Nat)
  | addTimer
  deriving DecidableEq

/-- The register writes of a trace, as (value, offset) pairs in order. -/
def regWrites (evs : List Ev) : List (Nat × Nat) :=
  evs.filterMap fun e =>
    match e with
    | .outb v off => some (v, off)
    | _ => none

/-- The bytes copied out to the user buffer, as (index, value) pairs in order. -/
def userPuts (evs : List Ev) : List (Nat × Nat) :=
  evs.filterMap fun e =>
    match e with
    | .putUser i v => some (i, v)
    | _ => none

/-- The offsets of the register reads a trace performs outside the control
register, in order. -/
def dataReadOffs (evs : List Ev) : List Nat :=
  evs.filterMap fun e =>
    match e with
    | .inb off _ => if off = MBOX_BMC_CTRL then none else some off
    | _ => none

/-- The offsets of the register writes a trace performs outside the control
register, in order. -/
def dataWriteOffs (evs : List Ev) : List Nat :=
  (regWrites evs).filterMap fun w =>
    if w.2 = MBOX_BMC_CTRL then none else some w.2

/-- Modelled from the spec: a simulated peer delivery asserts RECV and
modifies no data register (spec section 8, round-trip property). -/
def peer_deliver (s : MboxHw) : MboxHw :=
  { s with recv := true }

/-- A user buffer of length L for write: __get_user succeeds with the
byte at the index while the index is inside the buffer and faults past
its end. -/
def ubuf (L : Nat) (bytes : Nat → Nat) : Nat → Option Nat :=
  fun i => if i < L then some (bytes i) else none

/-- A concrete all-zero hardware state. -/
def hw0 : MboxHw :=
  { slot := fun _ => 0, recv := false, mask := false, send := false }

/-- A concrete hardware state with RECV pending and distinct slot bytes. -/
def hw1 : MboxHw :=
  { slot := fun o => (o + 3) % 256, recv := true, mask := false, send := false }

/-- Result of a file operation: a returned value, or blocked forever on
the wait queue (wait_event_interruptible with the condition false and no
signal ever delivered). -/
inductive Outcome where
  | ret (n : Int)
  | blocked
  deriving DecidableEq

/-- The interrupt handler mbox_host_irq: read the control register; if
RECV is unset return IRQ_NONE with no further action; otherwise write
MBOX_CTRL_MASK to the control register, wake all waiters and return
IRQ_HANDLED. -/
def IRQ_NONE : Nat := 0

def IRQ_HANDLED : Nat := 1

def mbox_host_irq (s : MboxHw) : Nat × MboxHw × List Ev :=
  let c := hwRead s MBOX_BMC_CTRL
  if Nat.land c MBOX_CTRL_RECV = 0 then
    (IRQ_NONE, s, [Ev.inb MBOX_BMC_CTRL c])
  else
    (IRQ_HANDLED, hwWrite s MBOX_CTRL_MASK MBOX_BMC_CTRL,
      [Ev.inb MBOX_BMC_CTRL c, Ev.outb MBOX_CTRL_MASK MBOX_BMC_CTRL, Ev.wake])

/-- The drain loop of mbox_host_read: for each remaining slot, ioread8 the
data register at MBOX_DATA_0 + i*4 and __put_user it at buffer index i
(putOk i tells whether that __put_user succeeds); stop at the first
failing index, which is returned. Reads do not change the state. -/
def readLoop (putOk : Nat → Bool) (s : MboxHw) : Nat → Nat → List Ev × Option Nat
  | _, 0 => ([], none)
  | i, n + 1 =>
    let b := hwRead s (MBOX_DATA_0 + i * 4)
    if putOk i then
      let r := readLoop putOk s (i + 1) n
      (Ev.inb (MBOX_DATA_0 + i * 4) b :: Ev.putUser i b :: r.1, r.2)
    else
      ([Ev.inb (MBOX_DATA_0 + i * 4) b], some i)

/-- The events of a fault-free drain of n slots starting at index i. -/
def drainEvs (s : MboxHw) (i : Nat) : Nat → List Ev
  | 0 => []
  | n + 1 =>
    Ev.inb (MBOX_DATA_0 + i * 4) (hwRead s (MBOX_DATA_0 + i * 4)) ::
      Ev.putUser i (hwRead s (MBOX_DATA_0 + i * 4)) :: drainEvs s (i + 1) n

/-- The (index, byte) pairs a fault-free drain of n slots starting at
index i copies to the user buffer, in order. -/
def putsList (s : MboxHw) (i : Nat) : Nat → List (Nat × Nat)
  | 0 => []
  | n + 1 => (i, hwRead s (MBOX_DATA_0 + i * 4)) :: putsList s (i + 1) n

/-- mbox_host_read. Arguments model its environment: count is the
caller-supplied length (used by the source only inside access_ok, whose
verdict is the accessOk argument), interrupted tells whether a signal is
pending while the wait would sleep, putOk which __put_user calls succeed.
The source: fail with -EFAULT when access_ok fails; wait interruptibly
for RECV (condition checked first; a pending signal aborts the sleep with
-ERESTARTSYS); drain the MBOX_NUM_DATA_REGS data registers to the user
buffer, failing with -EFAULT on a failing __put_user; write
MBOX_CTRL_RECV to the control register (W1C clear-and-unmask); return
the number of bytes copied. -/
def mbox_host_read (count : Nat) (accessOk : Bool) (interrupted : Bool)
    (putOk : Nat → Bool) (s : MboxHw) : Outcome × MboxHw × List Ev :=
  if ¬ accessOk then (.ret (-14), s, [])
  else
    let c := hwRead s MBOX_BMC_CTRL
    if Nat.land c MBOX_CTRL_RECV ≠ 0 then
      let r := readLoop putOk s 0 MBOX_NUM_DATA_REGS
      match r.2 with
      | some _ => (.ret (-14), s, Ev.inb MBOX_BMC_CTRL c :: r.1)
      | none =>
        (.ret (Int.ofNat MBOX_NUM_DATA_REGS),
          hwWrite s MBOX_CTRL_RECV MBOX_BMC_CTRL,
          Ev.inb MBOX_BMC_CTRL c :: r.1 ++ [Ev.outb MBOX_CTRL_RECV MBOX_BMC_CTRL])
    else if interrupted then
      (.ret (-512), s, [Ev.inb MBOX_BMC_CTRL c])
    else
      (.blocked, s, [Ev.inb MBOX_BMC_CTRL c])

/-- The copy loop of mbox_host_write: for each remaining slot, __get_user
the byte at buffer index i (getUser i, none on fault) and iowrite8 it to
the data register at MBOX_DATA_0 + i*4; stop at the first faulting index,
which is returned, keeping the register writes already performed. -/
def writeLoop (getUser : Nat → Option Nat) :
    Nat → Nat → MboxHw → MboxHw × List Ev × Option Nat
  | _, 0, s => (s, [], none)
  | i, n + 1, s =>
    match getUser i with
    | none => (s, [], some i)
    | some c =>
      let s1 := hwWrite s c (MBOX_DATA_0 + i * 4)
      let r := writeLoop getUser (i + 1) n s1
      (r.1, Ev.getUser i c :: Ev.outb c (MBOX_DATA_0 + i * 4) :: r.2.1, r.2.2)

/-- The state after a fault-free burst of n bytes b i, b (i+1), ... into
the data registers starting at slot i. -/
def stBurst (s : MboxHw) (b : Nat → Nat) (i : Nat) : Nat → MboxHw
  | 0 => s
  | n + 1 => stBurst (hwWrite s (b i) (MBOX_DATA_0 + i * 4)) b (i + 1) n

/-- The events of a fault-free burst of n bytes starting at slot i. -/
def burstEvs (b : Nat → Nat) (i : Nat) : Nat → List Ev
  | 0 => []
  | n + 1 =>
    Ev.getUser i (b i) :: Ev.outb (b i) (MBOX_DATA_0 + i * 4) :: burstEvs b (i + 1) n

/-- mbox_host_write. The source: fail with -EFAULT when access_ok fails;
copy MBOX_NUM_DATA_REGS bytes from the user buffer into the data
registers in slot order, failing with -EFAULT on a faulting __get_user
(register writes already issued stay issued); write MBOX_CTRL_SEND to
the control register; return the number of bytes consumed. The
caller-supplied count is used by the source only inside access_ok. -/
def mbox_host_write (count : Nat) (accessOk : Bool) (getUser : Nat → Option Nat)
    (s : MboxHw) : Outcome × MboxHw × List Ev :=
  if ¬ accessOk then (.ret (-14), s, [])
  else
    let r := writeLoop getUser 0 MBOX_NUM_DATA_REGS s
    match r.2.2 with
    | some _ => (.ret (-14), r.1, r.2.1)
    | none =>
      (.ret (Int.ofNat MBOX_NUM_DATA_REGS),
        hwWrite r.1 MBOX_CTRL_SEND MBOX_BMC_CTRL,
        r.2.1 ++ [Ev.outb MBOX_CTRL_SEND MBOX_BMC_CTRL])

/-- Modelled from the spec: the numeric value of MBOX_HOST_IOCTL_ATN is
defined in the repository header linux/mbox-host.h, which is not under
src/; only its identity as the single signal control code matters, so it
is fixed as 0 here. -/
def MBOX_HOST_IOCTL_ATN : Nat := 0

/-- mbox_host_ioctl: for MBOX_HOST_IOCTL_ATN, iowrite8 the parameter
(truncated to a byte by the u8 argument of mbox_outb) at offset
MBOX_DATA_0 + 15 and return 0; any other command returns -EINVAL with no
register access. -/
def mbox_host_ioctl (cmd param : Nat) (s : MboxHw) : Int × MboxHw × List Ev :=
  if cmd = MBOX_HOST_IOCTL_ATN then
    (0, hwWrite s (param % 256) (MBOX_DATA_0 + 15),
      [Ev.outb (param % 256) (MBOX_DATA_0 + 15)])
  else
    (-22, s, [])

def POLLIN : Nat := 1

/-- mbox_host_poll: poll_wait registers on the wait queue, then the
control register is read; the returned mask holds POLLIN exactly when
RECV reads set. No register write. -/
def mbox_host_poll (s : MboxHw) : Nat × MboxHw × List Ev :=
  let c := hwRead s MBOX_BMC_CTRL
  (if Nat.land c MBOX_CTRL_RECV ≠ 0 then POLLIN else 0, s,
    [Ev.pollWaitReg, Ev.inb MBOX_BMC_CTRL c])

/-- Modelled from the spec: jiffies are measured in milliseconds here, so
msecs_to_jiffies (kernel code outside the repository) is the identity. -/
def msecs_to_jiffies (m : Nat) : Nat := m

structure TimerState where
  expires : Nat

/-- The fallback-timer callback poll_timer: push expires 500 ms further,
wake all waiters, re-arm the timer. It takes no hardware state at all. -/
def poll_timer (ts : TimerState) : TimerState × List Ev :=
  ({ expires := ts.expires + msecs_to_jiffies 500 }, [Ev.wake, Ev.addTimer])

/-- mbox_host_config_irq: with no resolvable interrupt line (modelled as
irqLine = 0, the failure value of irq_of_parse_and_map) or a failing
devm_request_irq, the stored irq stays 0 and nothing is written;
otherwise the interrupt-enable registers are cleared, the W1C status
registers are cleared, stale RECV is cleared, and the stored irq is the
line. -/
def mbox_host_config_irq (irqLine : Nat) (requestIrqOk : Bool) (s : MboxHw) :
    Nat × MboxHw × List Ev :=
  if irqLine = 0 then (0, s, [])
  else if ¬ requestIrqOk then (0, s, [])
  else
    let s1 := hwWrite s 0x00 MBOX_INTERRUPT_0
    let s2 := hwWrite s1 0x00 MBOX_INTERRUPT_1
    let s3 := hwWrite s2 0xff MBOX_STATUS_0
    let s4 := hwWrite s3 0xff MBOX_STATUS_1
    let s5 := hwWrite s4 MBOX_CTRL_RECV MBOX_BMC_CTRL
    (irqLine, s5,
      [Ev.outb 0x00 MBOX_INTERRUPT_0, Ev.outb 0x00 MBOX_INTERRUPT_1,
        Ev.outb 0xff MBOX_STATUS_0, Ev.outb 0xff MBOX_STATUS_1,
        Ev.outb MBOX_CTRL_RECV MBOX_BMC_CTRL])

/-- What mbox_host_probe decides about the notification source: the bound
irq (0 when none), whether the fallback timer was armed, and the timer
first expiry. -/
structure ProbeOut where
  irq : Nat
  timerArmed : Bool
  timerExpires : Nat
  state : MboxHw

/-- mbox_host_probe, notification-source part: call mbox_host_config_irq;
with a bound irq use the interrupt variant, otherwise arm the fallback
timer with first expiry jiffies + msecs_to_jiffies 10. -/
def mbox_host_probe (irqLine : Nat) (requestIrqOk : Bool) (now : Nat)
    (s : MboxHw) : ProbeOut :=
  let r := mbox_host_config_irq irqLine requestIrqOk s
  if r.1 ≠ 0 then
    { irq := r.1, timerArmed := false, timerExpires := 0, state := r.2.1 }
  else
    { irq := 0, timerArmed := true,
      timerExpires := now + msecs_to_jiffies 10, state := r.2.1 }

/-- The timer expiry after n callback firings from an initial expiry e0. -/
def timerExpiresAfter (e0 : Nat) : Nat → Nat
  | 0 => e0
  | n + 1 => (poll_timer { expires := timerExpiresAfter e0 n }).1.expires

/-- The RECV test the source performs (mbox_inb of the control register
anded with MBOX_CTRL_RECV) reads the recv field of the state. -/
theorem recvTest_iff (s : MboxHw) :
    (Nat.land (hwRead s MBOX_BMC_CTRL) MBOX_CTRL_RECV ≠ 0) ↔ s.recv = true := by
  rcases s with ⟨slot, recv, mask, send⟩
  cases recv <;> cases mask <;> cases send <;>
    simp [hwRead, ctrlByte, MBOX_BMC_CTRL, MBOX_CTRL_RECV, MBOX_CTRL_MASK,
      MBOX_CTRL_SEND] <;> decide

/-- A drain whose __put_user calls all succeed on the scanned indices
produces the fault-free events and no fault. -/
theorem readLoop_ok (putOk : Nat → Bool) (s : MboxHw) :
    ∀ n i, (∀ j, i ≤ j → j < i + n → putOk j = true) →
      readLoop putOk s i n = (drainEvs s i n, none) := by
  intro n
  induction n with
  | zero => intro i _; rfl
  | succ n ih =>
    intro i h
    have hi : putOk i = true := h i (Nat.le_refl i) (by omega)
    simp only [readLoop, hi, if_pos]
    rw [ih (i + 1) (fun j hj1 hj2 => h j (by omega) (by omega))]
    rfl

/-- A drain whose first failing __put_user index is k (inside the scanned
range) performs the fault-free events up to k, then the read of slot k,
and reports the fault at k. -/
theorem readLoop_fault (putOk : Nat → Bool) (s : MboxHw) :
    ∀ n i k, i ≤ k → k < i + n → putOk k = false →
      (∀ j, i ≤ j → j < k → putOk j = true) →
      readLoop putOk s i n =
        (drainEvs s i (k - i) ++
          [Ev.inb (MBOX_DATA_0 + k * 4) (hwRead s (MBOX_DATA_0 + k * 4))], some k) := by
  intro n
  induction n with
  | zero => intro i k h1 h2; omega
  | succ n ih =>
    intro i k h1 h2 hk hok
    rcases Nat.eq_or_lt_of_le h1 with he | hlt
    · subst he
      have hnot : ¬ (putOk i = true) := by simp [hk]
      simp only [readLoop, if_neg hnot, Nat.sub_self, drainEvs, List.nil_append]
    · have hi : putOk i = true := hok i (Nat.le_refl i) hlt
      simp only [readLoop, hi, if_pos]
      rw [ih (i + 1) k (by omega) (by omega) hk (fun j hj1 hj2 => hok j (by omega) hj2)]
      have hki : k - i = (k - (i + 1)) + 1 := by omega
      rw [hki]
      rfl

/-- The user-buffer copies of a fault-free drain are its putsList. -/
theorem userPuts_drainEvs (s : MboxHw) :
    ∀ n i, userPuts (drainEvs s i n) = putsList s i n := by
  intro n
  induction n with
  | zero => intro i; rfl
  | succ n ih =>
    intro i
    simp only [drainEvs, userPuts, List.filterMap_cons, putsList]
    rw [← ih (i + 1)]
    rfl

/-- A fault-free drain performs no register write. -/
theorem regWrites_drainEvs (s : MboxHw) :
    ∀ n i, regWrites (drainEvs s i n) = [] := by
  intro n
  induction n with
  | zero => intro i; rfl
  | succ n ih =>
    intro i
    simp only [drainEvs, regWrites, List.filterMap_cons]
    exact ih (i + 1)

/-- A burst whose __get_user calls all succeed with the bytes b on the
scanned indices produces the burst state, the burst events and no fault. -/
theorem writeLoop_ok (g : Nat → Option Nat) (b : Nat → Nat) :
    ∀ n i s, (∀ j, i ≤ j → j < i + n → g j = some (b j)) →
      writeLoop g i n s = (stBurst s b i n, burstEvs b i n, none) := by
  intro n
  induction n with
  | zero => intro i s _; rfl
  | succ n ih =>
    intro i s h
    have hi : g i = some (b i) := h i (Nat.le_refl i) (by omega)
    simp only [writeLoop, hi]
    rw [ih (i + 1) _ (fun j hj1 hj2 => h j (by omega) (by omega))]
    rfl

/-- A burst whose first faulting __get_user index is k (inside the
scanned range) performs exactly the data-register writes before k and
reports the fault at k. -/
theorem writeLoop_fault (g : Nat → Option Nat) (b : Nat → Nat) :
    ∀ n i s k, i ≤ k → k < i + n → g k = none →
      (∀ j, i ≤ j → j < k → g j = some (b j)) →
      writeLoop g i n s = (stBurst s b i (k - i), burstEvs b i (k - i), some k) := by
  intro n
  induction n with
  | zero => intro i s k h1 h2; omega
  | succ n ih =>
    intro i s k h1 h2 hk hok
    rcases Nat.eq_or_lt_of_le h1 with he | hlt
    · subst he
      simp only [writeLoop, hk, Nat.sub_self, stBurst, burstEvs]
    · have hi : g i = some (b i) := hok i (Nat.le_refl i) hlt
      simp only [writeLoop, hi]
      rw [ih (i + 1) _ k (by omega) (by omega) hk (fun j hj1 hj2 => hok j (by omega) hj2)]
      have hki : k - i = (k - (i + 1)) + 1 := by omega
      rw [hki]
      rfl

/-- regWrites skips getUser events. -/
theorem regWrites_cons_getUser (i c : Nat) (l : List Ev) :
    regWrites (Ev.getUser i c :: l) = regWrites l := rfl

/-- regWrites records an outb event. -/
theorem regWrites_cons_outb (v o : Nat) (l : List Ev) :
    regWrites (Ev.outb v o :: l) = (v, o) :: regWrites l := rfl

/-- A burst of n bytes performs exactly n register writes. -/
theorem regWrites_burstEvs_length (b : Nat → Nat) :
    ∀ n i, (regWrites (burstEvs b i n)).length = n := by
  intro n
  induction n with
  | zero => intro i; rfl
  | succ n ih =>
    intro i
    rw [burstEvs, regWrites_cons_getUser, regWrites_cons_outb, List.length_cons,
      ih (i + 1)]

/-- A burst that stays inside the payload slots never writes the control
register. -/
theorem burstEvs_writes_data (b : Nat → Nat) :
    ∀ n i, i + n ≤ MBOX_NUM_DATA_REGS →
      ∀ w ∈ regWrites (burstEvs b i n), w.2 ≠ MBOX_BMC_CTRL := by
  intro n
  induction n with
  | zero =>
    intro i _ w hw
    simp [burstEvs, regWrites] at hw
  | succ n ih =>
    intro i hle w hw
    rw [burstEvs, regWrites_cons_getUser, regWrites_cons_outb] at hw
    rcases List.mem_cons.mp hw with h | h
    · subst h
      simp only [MBOX_DATA_0, MBOX_BMC_CTRL, MBOX_NUM_DATA_REGS] at *
      omega
    · exact ih (i + 1) (by omega) w h

/-- mbox_host_read with RECV pending and a fully writable destination
buffer: it returns 14, clears-and-unmasks RECV with a single control
write, and its trace is the control read, the fault-free drain and that
one control write. -/
theorem read_ok (count : Nat) (interrupted : Bool) (putOk : Nat → Bool) (s : MboxHw)
    (hput : ∀ j, putOk j = true) (hr : s.recv = true) :
    mbox_host_read count true interrupted putOk s =
      (.ret 14, hwWrite s MBOX_CTRL_RECV MBOX_BMC_CTRL,
        Ev.inb MBOX_BMC_CTRL (ctrlByte s) ::
          (drainEvs s 0 MBOX_NUM_DATA_REGS ++ [Ev.outb MBOX_CTRL_RECV MBOX_BMC_CTRL])) := by
  have hc : Nat.land (hwRead s MBOX_BMC_CTRL) MBOX_CTRL_RECV ≠ 0 := (recvTest_iff s).mpr hr
  have hloop := readLoop_ok putOk s MBOX_NUM_DATA_REGS 0 (fun j _ _ => hput j)
  simp only [mbox_host_read, hloop, if_pos hc, not_true, reduceIte]
  rfl

/-- mbox_host_read with RECV pending and a destination buffer whose
first failing byte is index k: it returns -EFAULT, leaves the hardware
state untouched (no control write, RECV stays pending), and its trace is
the control read, the drain up to k, and the read of slot k. -/
theorem read_fault (count : Nat) (interrupted : Bool) (putOk : Nat → Bool) (s : MboxHw)
    (k : Nat) (hk : k < MBOX_NUM_DATA_REGS) (hfail : putOk k = false)
    (hok : ∀ j, j < k → putOk j = true) (hr : s.recv = true) :
    mbox_host_read count true interrupted putOk s =
      (.ret (-14), s,
        Ev.inb MBOX_BMC_CTRL (ctrlByte s) ::
          (drainEvs s 0 k ++
            [Ev.inb (MBOX_DATA_0 + k * 4) (hwRead s (MBOX_DATA_0 + k * 4))])) := by
  have hc : Nat.land (hwRead s MBOX_BMC_CTRL) MBOX_CTRL_RECV ≠ 0 := (recvTest_iff s).mpr hr
  have hloop := readLoop_fault putOk s MBOX_NUM_DATA_REGS 0 k (Nat.zero_le k)
    (by omega) hfail (fun j _ hj => hok j hj)
  rw [Nat.sub_zero] at hloop
  simp only [mbox_host_read, hloop, if_pos hc, not_true, reduceIte]
  rfl

/-- mbox_host_read with RECV not pending never touches a register: with a
signal pending the wait aborts with -ERESTARTSYS, otherwise the caller
blocks; either way the trace is one control-register read and the state
is unchanged. -/
theorem read_nodata (count : Nat) (interrupted : Bool) (putOk : Nat → Bool)
    (s : MboxHw) (hr : s.recv = false) :
    mbox_host_read count true interrupted putOk s =
      (if interrupted then Outcome.ret (-512) else Outcome.blocked, s,
        [Ev.inb MBOX_BMC_CTRL (ctrlByte s)]) := by
  have hc : ¬ (Nat.land (hwRead s MBOX_BMC_CTRL) MBOX_CTRL_RECV ≠ 0) := by
    rw [recvTest_iff, hr]; simp
  cases interrupted <;>
    simp only [mbox_host_read, if_neg hc, not_true, reduceIte] <;> rfl

/-- mbox_host_write with a source buffer valid on all 14 indices: it
bursts the 14 bytes into the data registers in slot order, then asserts
SEND with a single control write, and returns 14. -/
theorem write_ok (count : Nat) (g : Nat → Option Nat) (b : Nat → Nat) (s : MboxHw)
    (hg : ∀ j, j < MBOX_NUM_DATA_REGS → g j = some (b j)) :
    mbox_host_write count true g s =
      (.ret 14,
        hwWrite (stBurst s b 0 MBOX_NUM_DATA_REGS) MBOX_CTRL_SEND MBOX_BMC_CTRL,
        burstEvs b 0 MBOX_NUM_DATA_REGS ++ [Ev.outb MBOX_CTRL_SEND MBOX_BMC_CTRL]) := by
  have hloop := writeLoop_ok g b MBOX_NUM_DATA_REGS 0 s (fun j _ hj => hg j (by omega))
  simp only [mbox_host_write, hloop]
  simp [MBOX_NUM_DATA_REGS]

/-- mbox_host_write with a source buffer whose first faulting byte is
index k < 14: it writes the k available bytes into slots 0..k-1, then
returns -EFAULT without asserting SEND; the already-issued data writes
stay issued. -/
theorem write_fault (count : Nat) (g : Nat → Option Nat) (b : Nat → Nat) (s : MboxHw)
    (k : Nat) (hk : k < MBOX_NUM_DATA_REGS) (hfail : g k = none)
    (hok : ∀ j, j < k → g j = some (b j)) :
    mbox_host_write count true g s = (.ret (-14), stBurst s b 0 k, burstEvs b 0 k) := by
  have hloop := writeLoop_fault g b MBOX_NUM_DATA_REGS 0 s k (Nat.zero_le k)
    (by omega) hfail (fun j _ hj => hok j hj)
  rw [Nat.sub_zero] at hloop
  simp only [mbox_host_write, hloop]
  simp

/-- regWrites skips inb events. -/
theorem regWrites_cons_inb (o v : Nat) (l : List Ev) :
    regWrites (Ev.inb o v :: l) = regWrites l := rfl

/-- regWrites distributes over append. -/
theorem regWrites_append (l1 l2 : List Ev) :
    regWrites (l1 ++ l2) = regWrites l1 ++ regWrites l2 := by
  simp [regWrites, List.filterMap_append]

/-- userPuts skips inb events. -/
theorem userPuts_cons_inb (o v : Nat) (l : List Ev) :
    userPuts (Ev.inb o v :: l) = userPuts l := rfl

/-- userPuts distributes over append. -/
theorem userPuts_append (l1 l2 : List Ev) :
    userPuts (l1 ++ l2) = userPuts l1 ++ userPuts l2 := by
  simp [userPuts, List.filterMap_append]

/-- C1: on every invocation of the interrupt notification source, if the
status register RECV bit is unset the handler reports IRQ_NONE with no
register write and no wake; if RECV is set it performs exactly one
register write, of the MASK bit (a byte whose RECV bit is clear, so the
W1C RECV bit is untouched and stays set), and only then wakes all
waiters; the notification source never clears RECV. -/
theorem irq_masks_never_clears_recv (s : MboxHw) :
    (s.recv = false →
      mbox_host_irq s = (IRQ_NONE, s, [Ev.inb MBOX_BMC_CTRL (ctrlByte s)]) ∧
      regWrites [Ev.inb MBOX_BMC_CTRL (ctrlByte s)] = []) ∧
    (s.recv = true →
      mbox_host_irq s =
        (IRQ_HANDLED, hwWrite s MBOX_CTRL_MASK MBOX_BMC_CTRL,
          [Ev.inb MBOX_BMC_CTRL (ctrlByte s), Ev.outb MBOX_CTRL_MASK MBOX_BMC_CTRL,
            Ev.wake]) ∧
      (hwWrite s MBOX_CTRL_MASK MBOX_BMC_CTRL).recv = true ∧
      (hwWrite s MBOX_CTRL_MASK MBOX_BMC_CTRL).mask = true ∧
      (hwWrite s MBOX_CTRL_MASK MBOX_BMC_CTRL).slot = s.slot ∧
      regWrites [Ev.inb MBOX_BMC_CTRL (ctrlByte s), Ev.outb MBOX_CTRL_MASK MBOX_BMC_CTRL,
        Ev.wake] = [(MBOX_CTRL_MASK, MBOX_BMC_CTRL)] ∧
      Nat.testBit MBOX_CTRL_MASK 7 = false) := by
  constructor
  · intro hr
    have hc : Nat.land (hwRead s MBOX_BMC_CTRL) MBOX_CTRL_RECV = 0 := by
      by_contra hne
      have h2 := (recvTest_iff s).mp hne
      rw [hr] at h2
      exact Bool.false_ne_true h2
    refine ⟨?_, rfl⟩
    simp only [mbox_host_irq, if_pos hc]
    rfl
  · intro hr
    have hc : ¬ (Nat.land (hwRead s MBOX_BMC_CTRL) MBOX_CTRL_RECV = 0) :=
      fun h0 => (recvTest_iff s).mpr hr h0
    refine ⟨?_, hr, rfl, rfl, rfl, rfl⟩
    simp only [mbox_host_irq, if_neg hc]
    rfl

/-- C2: a read with a valid buffer blocks while RECV reads unset (no
register write, no byte copied); once RECV reads set it copies exactly
the 14 payload slots to the buffer in ascending slot order, performs
exactly one status-register write, of the RECV bit (the atomic
clear-and-unmask, which resets recv and mask and leaves the data
registers intact), and returns 14. -/
theorem read_blocks_then_drains_and_clears (count : Nat) (putOk : Nat → Bool)
    (s : MboxHw) (hput : ∀ j, putOk j = true) :
    (s.recv = false →
      mbox_host_read count true false putOk s =
        (Outcome.blocked, s, [Ev.inb MBOX_BMC_CTRL (ctrlByte s)])) ∧
    (s.recv = true →
      mbox_host_read count true false putOk s =
        (.ret 14, hwWrite s MBOX_CTRL_RECV MBOX_BMC_CTRL,
          Ev.inb MBOX_BMC_CTRL (ctrlByte s) ::
            (drainEvs s 0 MBOX_NUM_DATA_REGS ++
              [Ev.outb MBOX_CTRL_RECV MBOX_BMC_CTRL])) ∧
      userPuts (Ev.inb MBOX_BMC_CTRL (ctrlByte s) ::
          (drainEvs s 0 MBOX_NUM_DATA_REGS ++
            [Ev.outb MBOX_CTRL_RECV MBOX_BMC_CTRL])) =
        [(0, s.slot 0), (1, s.slot 4), (2, s.slot 8), (3, s.slot 12), (4, s.slot 16),
          (5, s.slot 20), (6, s.slot 24), (7, s.slot 28), (8, s.slot 32),
          (9, s.slot 36), (10, s.slot 40), (11, s.slot 44), (12, s.slot 48),
          (13, s.slot 52)] ∧
      regWrites (Ev.inb MBOX_BMC_CTRL (ctrlByte s) ::
          (drainEvs s 0 MBOX_NUM_DATA_REGS ++
            [Ev.outb MBOX_CTRL_RECV MBOX_BMC_CTRL])) =
        [(MBOX_CTRL_RECV, MBOX_BMC_CTRL)] ∧
      (hwWrite s MBOX_CTRL_RECV MBOX_BMC_CTRL).recv = false ∧
      (hwWrite s MBOX_CTRL_RECV MBOX_BMC_CTRL).mask = false ∧
      (hwWrite s MBOX_CTRL_RECV MBOX_BMC_CTRL).slot = s.slot) := by
  constructor
  · intro hr
    rw [read_nodata count false putOk s hr]
    rfl
  · intro hr
    exact ⟨read_ok count false putOk s hput hr, rfl, rfl, rfl, rfl, rfl⟩

/-- Witness for C2 at a concrete pending state and buffer. -/
theorem read_blocks_then_drains_and_clears_witness :
    mbox_host_read 3 true false (fun _ => true) hw1 =
      (.ret 14, hwWrite hw1 MBOX_CTRL_RECV MBOX_BMC_CTRL,
        Ev.inb MBOX_BMC_CTRL (ctrlByte hw1) ::
          (drainEvs hw1 0 MBOX_NUM_DATA_REGS ++
            [Ev.outb MBOX_CTRL_RECV MBOX_BMC_CTRL])) :=
  ((read_blocks_then_drains_and_clears 3 (fun _ => true) hw1 (fun _ => rfl)).2 rfl).1

/-- C5: a blocking read aborted by a pending signal before RECV is
observed set returns -ERESTARTSYS (distinguishable from success and from
a zero-byte result), performs no register write, copies no byte, leaves
the state untouched, and a retry once RECV is set succeeds with 14
bytes. -/
theorem read_interrupted_spec (count : Nat) (putOk : Nat → Bool) (s : MboxHw)
    (hr : s.recv = false) :
    mbox_host_read count true true putOk s =
      (Outcome.ret (-512), s, [Ev.inb MBOX_BMC_CTRL (ctrlByte s)]) ∧
    regWrites [Ev.inb MBOX_BMC_CTRL (ctrlByte s)] = [] ∧
    userPuts [Ev.inb MBOX_BMC_CTRL (ctrlByte s)] = [] ∧
    Outcome.ret (-512) ≠ Outcome.ret 14 ∧
    Outcome.ret (-512) ≠ Outcome.ret 0 ∧
    (∀ putOk2 : Nat → Bool, (∀ j, putOk2 j = true) →
      (mbox_host_read count true false putOk2 (peer_deliver s)).1 = Outcome.ret 14) := by
  refine ⟨?_, rfl, rfl, by decide, by decide, ?_⟩
  · rw [read_nodata count true putOk s hr]
    rfl
  · intro putOk2 hp2
    rw [read_ok count false putOk2 (peer_deliver s) hp2 rfl]

/-- Witness for C5 at a concrete idle state. -/
theorem read_interrupted_spec_witness :
    mbox_host_read 0 true true (fun _ => true) hw0 =
      (Outcome.ret (-512), hw0, [Ev.inb MBOX_BMC_CTRL (ctrlByte hw0)]) :=
  (read_interrupted_spec 0 (fun _ => true) hw0 rfl).1

/-- C8: the readiness query registers with the wait queue strictly before
it reads the status register, performs no register write, leaves the
state unchanged, and reports readable (POLLIN) exactly when RECV reads
set. -/
theorem poll_registers_then_reads (s : MboxHw) :
    (mbox_host_poll s).2.2 =
      [Ev.pollWaitReg, Ev.inb MBOX_BMC_CTRL (ctrlByte s)] ∧
    regWrites (mbox_host_poll s).2.2 = [] ∧
    (mbox_host_poll s).2.1 = s ∧
    ((mbox_host_poll s).1 = POLLIN ↔ s.recv = true) ∧
    ((mbox_host_poll s).1 = POLLIN ∨ (mbox_host_poll s).1 = 0) := by
  refine ⟨rfl, rfl, rfl, ?_, ?_⟩ <;> by_cases hrv : s.recv = true
  · have hc := (recvTest_iff s).mpr hrv
    simp only [mbox_host_poll, if_pos hc]
    simp [hrv]
  · have hc : ¬ (Nat.land (hwRead s MBOX_BMC_CTRL) MBOX_CTRL_RECV ≠ 0) :=
      fun h => hrv ((recvTest_iff s).mp h)
    simp only [mbox_host_poll, if_neg hc]
    simp [POLLIN, hrv]
  · have hc := (recvTest_iff s).mpr hrv
    simp only [mbox_host_poll, if_pos hc]
    exact Or.inl trivial
  · have hc : ¬ (Nat.land (hwRead s MBOX_BMC_CTRL) MBOX_CTRL_RECV ≠ 0) :=
      fun h => hrv ((recvTest_iff s).mp h)
    simp only [mbox_host_poll, if_neg hc]
    exact Or.inr trivial

/-- C9: a successful read copies exactly MBOX_NUM_DATA_REGS bytes to the
caller buffer whatever maximum length the caller supplied; in
particular a caller-supplied length below the frame size does not bound
the copy. -/
theorem read_ignores_count (count : Nat) (putOk : Nat → Bool) (s : MboxHw)
    (hput : ∀ j, putOk j = true) (hr : s.recv = true) :
    (mbox_host_read count true false putOk s).1 = Outcome.ret 14 ∧
    (userPuts (mbox_host_read count true false putOk s).2.2).length =
      MBOX_NUM_DATA_REGS ∧
    (count < MBOX_NUM_DATA_REGS →
      count < (userPuts (mbox_host_read count true false putOk s).2.2).length) := by
  have h := read_ok count false putOk s hput hr
  rw [h]
  have hl : (userPuts (Ev.inb MBOX_BMC_CTRL (ctrlByte s) ::
      (drainEvs s 0 MBOX_NUM_DATA_REGS ++
        [Ev.outb MBOX_CTRL_RECV MBOX_BMC_CTRL]))).length = MBOX_NUM_DATA_REGS := rfl
  exact ⟨rfl, hl, fun hcnt => by rw [hl]; exact hcnt⟩

/-- Witness for C9 at a concrete pending state with a short caller length. -/
theorem read_ignores_count_witness :
    (userPuts (mbox_host_read 2 true false (fun _ => true) hw1).2.2).length =
      MBOX_NUM_DATA_REGS :=
  (read_ignores_count 2 (fun _ => true) hw1 (fun _ => rfl) rfl).2.1

/-- C10: a read whose destination buffer faults first at index k of the
frame returns -EFAULT, performs no register write (RECV stays pending and
the state is unchanged, so a later read still consumes the message), and
leaves the first k drained bytes already written in the buffer. -/
theorem read_put_fault_spec (count k : Nat) (putOk : Nat → Bool) (s : MboxHw)
    (hk : k < MBOX_NUM_DATA_REGS) (hfail : putOk k = false)
    (hok : ∀ j, j < k → putOk j = true) (hr : s.recv = true) :
    (mbox_host_read count true false putOk s).1 = Outcome.ret (-14) ∧
    regWrites (mbox_host_read count true false putOk s).2.2 = [] ∧
    userPuts (mbox_host_read count true false putOk s).2.2 = putsList s 0 k ∧
    (mbox_host_read count true false putOk s).2.1 = s ∧
    (∀ putOk2 : Nat → Bool, (∀ j, putOk2 j = true) →
      (mbox_host_read count true false putOk2 s).1 = Outcome.ret 14) := by
  have h := read_fault count false putOk s k hk hfail hok hr
  rw [h]
  refine ⟨rfl, ?_, ?_, rfl, ?_⟩
  · rw [regWrites_cons_inb, regWrites_append, regWrites_drainEvs]
    rfl
  · rw [userPuts_cons_inb, userPuts_append, userPuts_drainEvs]
    exact List.append_nil _
  · intro putOk2 hp2
    rw [read_ok count false putOk2 s hp2 hr]

/-- Witness for C10: a buffer that faults from index 5 onward. -/
theorem read_put_fault_spec_witness :
    (mbox_host_read 0 true false (fun i => decide (i < 5)) hw1).1 =
      Outcome.ret (-14) :=
  (read_put_fault_spec 0 5 (fun i => decide (i < 5)) hw1 (by decide) rfl
    (fun j hj => decide_eq_true hj) rfl).1

/-- C3 (amended): a write with a buffer of length at least the frame size
copies exactly the first 14 bytes into the payload slots in ascending
slot order (further bytes are ignored), asserts SEND exactly once after
the copy, and returns 14; a write with a shorter buffer of length L is
not bounded by L: the source copies the L available bytes into slots
0..L-1 (all register writes go to payload slots, never the control
register), performs no SEND assertion, and returns -EFAULT rather than
the number of bytes written. Write never blocks. -/
theorem write_burst_spec (count L : Nat) (bytes : Nat → Nat) (s : MboxHw) :
    (MBOX_NUM_DATA_REGS ≤ L →
      mbox_host_write count true (ubuf L bytes) s =
        (.ret 14,
          hwWrite (stBurst s bytes 0 MBOX_NUM_DATA_REGS) MBOX_CTRL_SEND MBOX_BMC_CTRL,
          burstEvs bytes 0 MBOX_NUM_DATA_REGS ++
            [Ev.outb MBOX_CTRL_SEND MBOX_BMC_CTRL])) ∧
    (L < MBOX_NUM_DATA_REGS →
      mbox_host_write count true (ubuf L bytes) s =
        (.ret (-14), stBurst s bytes 0 L, burstEvs bytes 0 L) ∧
      (regWrites (burstEvs bytes 0 L)).length = L ∧
      (∀ w ∈ regWrites (burstEvs bytes 0 L), w.2 ≠ MBOX_BMC_CTRL)) ∧
    (mbox_host_write count true (ubuf L bytes) s).1 ≠ Outcome.blocked ∧
    (regWrites (burstEvs bytes 0 MBOX_NUM_DATA_REGS)).length = MBOX_NUM_DATA_REGS := by
  refine ⟨fun hL => ?_, fun hL => ?_, ?_, regWrites_burstEvs_length bytes MBOX_NUM_DATA_REGS 0⟩
  · exact write_ok count (ubuf L bytes) bytes s (fun j hj => by
      show (if j < L then some (bytes j) else none) = some (bytes j)
      rw [if_pos (by omega)])
  · refine ⟨write_fault count (ubuf L bytes) bytes s L hL ?_ ?_,
      regWrites_burstEvs_length bytes L 0,
      burstEvs_writes_data bytes L 0 (by omega)⟩
    · show (if L < L then some (bytes L) else none) = none
      rw [if_neg (Nat.lt_irrefl L)]
    · intro j hj
      show (if j < L then some (bytes j) else none) = some (bytes j)
      rw [if_pos hj]
  · rcases Nat.lt_or_ge L MBOX_NUM_DATA_REGS with h | h
    · have hf := write_fault count (ubuf L bytes) bytes s L h
        (by
          show (if L < L then some (bytes L) else none) = none
          rw [if_neg (Nat.lt_irrefl L)])
        (fun j hj => by
          show (if j < L then some (bytes j) else none) = some (bytes j)
          rw [if_pos hj])
      rw [hf]
      simp
    · have ho := write_ok count (ubuf L bytes) bytes s (fun j hj => by
        show (if j < L then some (bytes j) else none) = some (bytes j)
        rw [if_pos (by omega)])
      rw [ho]
      simp

/-- Counterexample to C3 as stated: with a valid 5-byte buffer the write
does copy 5 bytes into the payload slots, but it returns -EFAULT, not the
count 5 of bytes written. -/
theorem write_short_buffer_cex :
    (mbox_host_write 5 true (ubuf 5 (fun i => i + 1)) hw0).1 = Outcome.ret (-14) ∧
    (regWrites (mbox_host_write 5 true (ubuf 5 (fun i => i + 1)) hw0).2.2).length = 5 ∧
    Outcome.ret (-14) ≠ Outcome.ret 5 := by
  decide

/-- C4: writing a frame of bytes b, then a simulated peer delivery that
asserts RECV and leaves the data registers alone, then reading, yields
exactly the bytes of b in the original slot order; the data-register
offsets written by write slot i and read by read slot i coincide
(0, 4, ..., 52). -/
theorem write_deliver_read_roundtrip (count1 count2 : Nat) (b : Nat → Nat) (s : MboxHw)
    (hb : ∀ i, i < MBOX_NUM_DATA_REGS → b i < 256) :
    userPuts (mbox_host_read count2 true false (fun _ => true)
        (peer_deliver (mbox_host_write count1 true (fun i => some (b i)) s).2.1)).2.2 =
      [(0, b 0), (1, b 1), (2, b 2), (3, b 3), (4, b 4), (5, b 5), (6, b 6), (7, b 7),
        (8, b 8), (9, b 9), (10, b 10), (11, b 11), (12, b 12), (13, b 13)] ∧
    (mbox_host_read count2 true false (fun _ => true)
        (peer_deliver (mbox_host_write count1 true (fun i => some (b i)) s).2.1)).1 =
      Outcome.ret 14 ∧
    dataWriteOffs (mbox_host_write count1 true (fun i => some (b i)) s).2.2 =
      [0, 4, 8, 12, 16, 20, 24, 28, 32, 36, 40, 44, 48, 52] ∧
    dataReadOffs (mbox_host_read count2 true false (fun _ => true)
        (peer_deliver (mbox_host_write count1 true (fun i => some (b i)) s).2.1)).2.2 =
      [0, 4, 8, 12, 16, 20, 24, 28, 32, 36, 40, 44, 48, 52] := by
  have hwr := write_ok count1 (fun i => some (b i)) b s (fun j _ => rfl)
  have hrd := read_ok count2 false (fun _ => true)
    (peer_deliver (mbox_host_write count1 true (fun i => some (b i)) s).2.1)
    (fun _ => rfl) rfl
  have hmod : ∀ i, i < MBOX_NUM_DATA_REGS → b i % 256 = b i :=
    fun i hi => Nat.mod_eq_of_lt (hb i hi)
  refine ⟨?_, ?_, ?_, ?_⟩
  · rw [hrd, hwr]
    show [(0, b 0 % 256), (1, b 1 % 256), (2, b 2 % 256), (3, b 3 % 256),
      (4, b 4 % 256), (5, b 5 % 256), (6, b 6 % 256), (7, b 7 % 256),
      (8, b 8 % 256), (9, b 9 % 256), (10, b 10 % 256), (11, b 11 % 256),
      (12, b 12 % 256), (13, b 13 % 256)] = _
    rw [hmod 0 (by decide), hmod 1 (by decide), hmod 2 (by decide), hmod 3 (by decide),
      hmod 4 (by decide), hmod 5 (by decide), hmod 6 (by decide), hmod 7 (by decide),
      hmod 8 (by decide), hmod 9 (by decide), hmod 10 (by decide), hmod 11 (by decide),
      hmod 12 (by decide), hmod 13 (by decide)]
  · rw [hrd]
  · rw [hwr]
    rfl
  · rw [hrd]
    rfl

/-- The concrete frame used by the round-trip witness. -/
def bw : Nat → Nat := fun i => (i + 2) % 256

/-- Witness for C4 at a concrete frame and the all-zero state. -/
theorem write_deliver_read_roundtrip_witness :
    userPuts (mbox_host_read 0 true false (fun _ => true)
        (peer_deliver (mbox_host_write 0 true (fun i => some (bw i)) hw0).2.1)).2.2 =
      [(0, bw 0), (1, bw 1), (2, bw 2), (3, bw 3), (4, bw 4), (5, bw 5), (6, bw 6),
        (7, bw 7), (8, bw 8), (9, bw 9), (10, bw 10), (11, bw 11), (12, bw 12),
        (13, bw 13)] :=
  (write_deliver_read_roundtrip 0 0 bw hw0 (fun i _ => Nat.mod_lt _ (by decide))).1

/-- C6 evaluation: the signal control operation writes its byte at
register-window offset MBOX_DATA_0 + 15, which is not the reserved data
slot: under the stride-4 slot addressing used by read and write (slot j
at MBOX_DATA_0 + j*4) that offset is no payload slot, is not slot 15
(offset 60), and is not the last slot of the 16-register window; any
other control code returns -EINVAL with no register access. -/
theorem ioctl_atn_eval :
    (mbox_host_ioctl MBOX_HOST_IOCTL_ATN 0xAA hw0).1 = 0 ∧
    (mbox_host_ioctl MBOX_HOST_IOCTL_ATN 0xAA hw0).2.2 =
      [Ev.outb 0xAA (MBOX_DATA_0 + 15)] ∧
    (∀ j, j < MBOX_NUM_DATA_REGS → MBOX_DATA_0 + 15 ≠ MBOX_DATA_0 + j * 4) ∧
    MBOX_DATA_0 + 15 ≠ MBOX_DATA_0 + 15 * 4 ∧
    MBOX_DATA_0 + 15 ≠ MBOX_DATA_0 + (MBOX_NUM_REGS - 1) * 4 ∧
    (mbox_host_ioctl (MBOX_HOST_IOCTL_ATN + 1) 0x55 hw0).1 = -22 ∧
    (mbox_host_ioctl (MBOX_HOST_IOCTL_ATN + 1) 0x55 hw0).2.2 = [] := by
  decide

/-- C7: after attach exactly one notification source is active: the
fallback timer is armed precisely when no interrupt line was bound; when
armed its first expiry is 10 ms after attach, each callback pushes the
expiry exactly 500 ms further and re-arms, and every tick wakes all
waiters unconditionally (the callback neither reads nor writes any
register). -/
theorem notification_source_spec (irqLine : Nat) (requestIrqOk : Bool) (now : Nat)
    (s : MboxHw) (n : Nat) (ts : TimerState) :
    ((mbox_host_probe irqLine requestIrqOk now s).timerArmed = true ↔
      (mbox_host_probe irqLine requestIrqOk now s).irq = 0) ∧
    ((mbox_host_probe irqLine requestIrqOk now s).timerArmed = true →
      (mbox_host_probe irqLine requestIrqOk now s).timerExpires =
        now + msecs_to_jiffies 10) ∧
    timerExpiresAfter (now + msecs_to_jiffies 10) (n + 1) =
      timerExpiresAfter (now + msecs_to_jiffies 10) n + msecs_to_jiffies 500 ∧
    (poll_timer ts).2 = [Ev.wake, Ev.addTimer] ∧
    Ev.wake ∈ (poll_timer ts).2 ∧
    regWrites (poll_timer ts).2 = [] := by
  have key : ((mbox_host_probe irqLine requestIrqOk now s).timerArmed = true ↔
      (mbox_host_probe irqLine requestIrqOk now s).irq = 0) ∧
      ((mbox_host_probe irqLine requestIrqOk now s).timerArmed = true →
        (mbox_host_probe irqLine requestIrqOk now s).timerExpires =
          now + msecs_to_jiffies 10) := by
    by_cases h0 : irqLine = 0
    · subst h0
      constructor <;> simp [mbox_host_probe, mbox_host_config_irq]
    · cases requestIrqOk with
      | false => constructor <;> simp [mbox_host_probe, mbox_host_config_irq, h0]
      | true => constructor <;> simp [mbox_host_probe, mbox_host_config_irq, h0]
  exact ⟨key.1, key.2, rfl, rfl, by simp [poll_timer], rfl⟩
